import Mathlib

/-!
# Verification of the `process_addons` batch dispatcher

A shallow embedding of the batch add-on processing dispatcher of the
addons-server repository: Entity Selector, Batcher, Task Dispatcher, Task
Catalog and Command Entry Point, together with the entity store the
selectors read (add-ons, versions' auto-approval summaries, ratings,
abuse reports, denied guids).

The repository excerpt contains the test suite
(`src/olympia/addons/tests/test_commands.py`) but not the command
implementation itself, so the operational definitions below are modelled
from the specification, and checked against the scenarios the test suite
enumerates.
-/

namespace ProcessAddons

/-! ## Batcher -/

/-- Modelled from the spec: the Batcher of the missing
`process_addons` management command (spec §4.2). Fuel-indexed helper:
`chunkedAux bs fuel l` splits `l` into contiguous chunks of size `bs`,
recursing on `fuel`; with `fuel ≥ l.length` and `bs > 0` the fuel never
runs out. -/
def chunkedAux (bs : Nat) : Nat → List α → List (List α)
  | _, [] => []
  | 0, _ :: _ => []
  | fuel + 1, x :: xs => ((x :: xs).take bs) :: chunkedAux bs fuel ((x :: xs).drop bs)

/-- Modelled from the spec: `chunk(items, batch_size)` of the missing
`process_addons` command (spec §4.2) — splits `items` into contiguous
chunks of `bs` elements, the last chunk possibly smaller, preserving
order. -/
def chunked (bs : Nat) (l : List α) : List (List α) :=
  chunkedAux bs l.length l

/-! ## Entity store

The external datastore read by the selectors.  Modelled from the spec
(§3, §6): entity records carry status, version chain, approval verdicts,
ratings and abuse reports.  Timestamps are abstract integers; guids are
abstract identifiers. -/

/-- Verdict recorded by an auto-approval summary. -/
inductive Verdict
  | autoApproved
  | notAutoApproved
deriving DecidableEq, Repr

/-- Add-on status codes, as used by the entity store. -/
inductive AddonStatus
  | incomplete
  | nominated
  | awaitingReview
  | approved
  | disabled
  | deleted
deriving DecidableEq, Repr

/-- Modelled from the spec: an add-on record of the external entity
store (missing `olympia/addons/models.py`).  `currentVersion` is the id
of the add-on's current version, when it has one; `atype` is the add-on
type code (1 extension, 2 complete theme, 3 dictionary, 5 language pack,
6 language add-on, 7 plugin, 9 lightweight theme, 10 static theme,
11 web app); `authors` lists the ids of the add-on's authors. -/
structure Addon where
  id : Nat
  atype : Nat
  status : AddonStatus
  guid : Option Nat
  created : Int
  currentVersion : Option Nat
  authors : List Nat
deriving DecidableEq, Repr

/-- Modelled from the spec: the auto-approval summary attached to a
version (missing `olympia/reviewers/models.py`), carrying the verdict,
the confirmation flag and the last-modified timestamp that anchors the
recency window. -/
structure AutoApprovalSummary where
  versionId : Nat
  verdict : Verdict
  confirmed : Bool
  modified : Int
deriving DecidableEq, Repr

/-- Modelled from the spec: a user rating of an add-on (missing
`olympia/ratings/models.py`), with its score, soft-deletion flag and
creation timestamp. -/
structure Rating where
  addonId : Nat
  rating : Nat
  deleted : Bool
  created : Int
deriving DecidableEq, Repr

/-- Modelled from the spec: an abuse report (missing
`olympia/abuse/models.py`), filed either against an add-on or against a
user (an add-on author), with a deleted state and a creation
timestamp. -/
structure AbuseReport where
  addonId : Option Nat
  userId : Option Nat
  deleted : Bool
  created : Int
deriving DecidableEq, Repr

/-- Modelled from the spec: a fixed state of the external entity store
(spec §5, §6): the add-ons with their versions' auto-approval summaries,
the ratings, the abuse reports, and the denied-guid registry. -/
structure DB where
  addons : List Addon
  summaries : List AutoApprovalSummary
  ratings : List Rating
  abuseReports : List AbuseReport
  deniedGuids : List Nat
deriving DecidableEq, Repr

/-- The auto-approval summary of an add-on's current version, when the
add-on has a current version and that version has a summary. -/
def currentSummary (db : DB) (a : Addon) : Option AutoApprovalSummary :=
  a.currentVersion.bind fun vid => db.summaries.find? fun s => s.versionId == vid

/-! ## Entity selectors -/

/-- Modelled from the spec: the selector of the
`recalculate_post_review_weight` task (spec §4.1, §8) — an add-on is
eligible when its current version's auto-approval summary has verdict
AUTO_APPROVED and is not yet confirmed. -/
def autoApprovedUnconfirmed (db : DB) (a : Addon) : Bool :=
  match currentSummary db a with
  | some s => s.verdict == .autoApproved && !s.confirmed
  | none => false

/-- Modelled from the spec: selector output of
`recalculate_post_review_weight` — the ids of the eligible add-ons, in
store order. -/
def recalcSelector (db : DB) : List Nat :=
  (db.addons.filter (autoApprovedUnconfirmed db)).map (·.id)

/-- A rating that pushes an add-on into the constant-recalculation
sweep: it belongs to the add-on, is not deleted, scores at most 3, and
was created after the current summary was last modified. -/
def lowRatingTriggers (a : Addon) (s : AutoApprovalSummary) (r : Rating) : Bool :=
  r.addonId == a.id && !r.deleted && r.rating ≤ 3 && s.modified < r.created

/-- An abuse report that pushes an add-on into the constant-recalculation
sweep: it is not deleted, was created after the current summary was last
modified, and is filed either against the add-on itself or against one
of the add-on's authors. -/
def reportTriggers (a : Addon) (s : AutoApprovalSummary) (ab : AbuseReport) : Bool :=
  !ab.deleted && s.modified < ab.created &&
    (ab.addonId == some a.id ||
      (ab.userId.map fun u => a.authors.contains u).getD false)

/-- Modelled from the spec: the eligibility predicate of the
`constantly_recalculate_post_review_weight` task (spec §4.1, §9) — the
current version's summary must have verdict AUTO_APPROVED, and the
add-on must have either a qualifying recent low rating or a qualifying
recent abuse report. -/
def recalcNeeded (db : DB) (a : Addon) : Bool :=
  match currentSummary db a with
  | some s =>
      s.verdict == .autoApproved &&
        (db.ratings.any (lowRatingTriggers a s) ||
         db.abuseReports.any (reportTriggers a s))
  | none => false

/-- Modelled from the spec: selector output of
`constantly_recalculate_post_review_weight` — the ids of the eligible
add-ons, in store order. -/
def constantlyRecalcSelector (db : DB) : List Nat :=
  (db.addons.filter (recalcNeeded db)).map (·.id)

/-- Add-on type codes that are re-signed by `resign_addons_for_cose`:
extensions, dictionaries, language packs and static themes. -/
def resignableTypes : List Nat := [1, 3, 5, 10]

/-- The creation-date cutoff of `resign_addons_for_cose` (April 4th
2019, encoded as an abstract timestamp): add-ons created on or after it
are not re-signed. -/
def coseCutoff : Int := 20190404

/-- Modelled from the spec: the selector of the `resign_addons_for_cose`
task — public (approved) add-ons of a re-signable type created before
the cutoff date. -/
def resignSelector (db : DB) : List Nat :=
  (db.addons.filter (fun a =>
    resignableTypes.contains a.atype && a.status == .approved &&
      a.created < coseCutoff)).map (·.id)

/-- Add-on type codes considered obsolete by `delete_obsolete_addons`:
complete themes, language add-ons, plugins, lightweight themes and web
apps. -/
def obsoleteTypes : List Nat := [2, 6, 7, 9, 11]

/-- Modelled from the spec: the selector of the `delete_obsolete_addons`
task — add-ons whose type is obsolete, whatever their status. -/
def obsoleteSelector (db : DB) : List Nat :=
  (db.addons.filter (fun a => obsoleteTypes.contains a.atype)).map (·.id)

/-! ## Task catalog, dispatcher and command entry point -/

/-- Errors surfaced by the command entry point (spec §7): an unknown
task name, or a non-positive batch size. -/
inductive ProcessError
  | invalidTask
  | configurationError
deriving DecidableEq, Repr

/-- Modelled from the spec: the Task Catalog of the missing
`process_addons` command (spec §2) — the task names the command
accepts. -/
def taskNames : List String :=
  ["recalculate_post_review_weight",
   "constantly_recalculate_post_review_weight",
   "resign_addons_for_cose",
   "recreate_previews",
   "extract_colors_from_static_themes",
   "delete_obsolete_addons",
   "update_rating_aggregates",
   "delete_list_theme_previews",
   "disable_blocked_addons"]

/-- The default batch size of the catalog's tasks (spec §4.2: commonly
100, overridable by the caller). -/
def defaultBatchSize : Int := 100

/-- Modelled from the spec: `select(task_name)` of the missing
`process_addons` command (spec §4.1) — the ordered ids the task's
selector produces for a fixed store state.  Tasks whose filter the spec
leaves unspecified select every add-on in store order. -/
def getPks (db : DB) (task : String) : List Nat :=
  if task = "recalculate_post_review_weight" then recalcSelector db
  else if task = "constantly_recalculate_post_review_weight" then
    constantlyRecalcSelector db
  else if task = "resign_addons_for_cose" then resignSelector db
  else if task = "delete_obsolete_addons" then obsoleteSelector db
  else db.addons.map (·.id)

/-- Modelled from the spec: the Batcher entry (spec §4.2) — fails with
`ConfigurationError` when `bs ≤ 0`, otherwise chunks the items. -/
def batcher (items : List Nat) (bs : Int) : Except ProcessError (List (List Nat)) :=
  if bs ≤ 0 then .error .configurationError else .ok (chunked bs.toNat items)

/-- The observable outcome of one command invocation: the chunks handed
to the Task Dispatcher, in submission order, and the error the command
surfaced, if any. -/
structure RunResult where
  submissions : List (List Nat)
  error : Option ProcessError
deriving DecidableEq, Repr

/-- Modelled from the spec: the Command Entry Point of the missing
`process_addons` command (spec §4.4) — validate the task name against
the catalog, select, apply the optional limit, batch, dispatch.  An
invalid task name or a non-positive batch size fails before any chunk is
submitted. -/
def processAddons (db : DB) (task : String) (limit : Option Nat)
    (batchSize : Option Int) : RunResult :=
  if taskNames.contains task then
    let pks := getPks db task
    let pks := match limit with
      | some n => pks.take n
      | none => pks
    match batcher pks (batchSize.getD defaultBatchSize) with
    | .ok chunks => ⟨chunks, none⟩
    | .error e => ⟨[], some e⟩
  else ⟨[], some .invalidTask⟩

/-! ## Workers -/

/-- Modelled from the spec: the versions whose weight the
`recalculate_post_review_weight` worker touches (missing
`olympia/reviewers/tasks.py`) — for each dispatched add-on id, the
add-on's current version, so `calculate_weight` runs once per add-on
and only against the current version's summary. -/
def recalcWeightTargets (db : DB) (pks : List Nat) : List Nat :=
  pks.filterMap fun pk =>
    (db.addons.find? (fun a => a.id == pk)).bind (·.currentVersion)

/-- Modelled from the spec: the versions whose file the `sign_addons`
worker re-signs (missing `olympia/lib/crypto/tasks.py`) — for each
dispatched add-on id, the file of the add-on's current version, one
signing call each. -/
def signTargets (db : DB) (pks : List Nat) : List Nat :=
  pks.filterMap fun pk =>
    (db.addons.find? (fun a => a.id == pk)).bind (·.currentVersion)

/-- Insert a guid into the denied-guid registry, ignoring it when it is
already present (the registry's unique constraint). -/
def addDeniedGuid (denied : List Nat) (g : Nat) : List Nat :=
  if denied.contains g then denied else denied ++ [g]

/-- One step of the hard-deletion sweep over the denied-guid registry:
record the add-on's guid when it has one, skip the add-on otherwise. -/
def denyStep (denied : List Nat) (a : Addon) : List Nat :=
  match a.guid with
  | some g => addDeniedGuid denied g
  | none => denied

/-- Modelled from the spec: the `delete_obsolete_addons` worker (missing
`olympia/addons/tasks.py`) — without `withDeleted` it soft-deletes the
obsolete add-ons (status becomes deleted, rows remain); with
`withDeleted` it removes them from the store and records each non-null
guid in the denied-guid registry, skipping guids already present. -/
def deleteObsoleteAddons (db : DB) (withDeleted : Bool) : DB :=
  if withDeleted then
    { db with
      addons := db.addons.filter fun a => !obsoleteTypes.contains a.atype
      deniedGuids :=
        (db.addons.filter fun a => obsoleteTypes.contains a.atype).foldl
          denyStep db.deniedGuids }
  else
    { db with
      addons := db.addons.map fun a =>
        if obsoleteTypes.contains a.atype then { a with status := .deleted } else a }

/-- The number of add-on rows visible through the default manager: rows
whose status is not deleted. -/
def visibleCount (db : DB) : Nat :=
  (db.addons.filter fun a => a.status ≠ AddonStatus.deleted).length

/-! ## Concrete store states from the test suite

Each store below transcribes one scenario of
`src/olympia/addons/tests/test_commands.py`.  Summary `modified`
timestamps are normalised to `0`, events three days after to `3`, three
days before to `-3`. -/

/-- The store of `RecalculateWeightTestCase
.test_only_affects_auto_approved_and_unconfirmed`: add-on 1 has no
summary; add-on 2's summary says NOT_AUTO_APPROVED; add-on 3's
auto-approved version 103 is no longer current; add-on 4 is
auto-approved but already confirmed; add-on 5 is auto-approved and
unconfirmed (its extra awaiting-review and unlisted versions are not
current). -/
def rwDB : DB :=
  { addons :=
      [⟨1, 1, .approved, some 1, 0, some 101, []⟩,
       ⟨2, 1, .approved, some 2, 0, some 102, []⟩,
       ⟨3, 1, .approved, some 3, 0, some 104, []⟩,
       ⟨4, 1, .approved, some 4, 0, some 105, []⟩,
       ⟨5, 1, .approved, some 5, 0, some 106, []⟩]
    summaries :=
      [⟨102, .notAutoApproved, false, 0⟩,
       ⟨103, .autoApproved, false, 0⟩,
       ⟨105, .autoApproved, true, 0⟩,
       ⟨106, .autoApproved, false, 0⟩]
    ratings := []
    abuseReports := []
    deniedGuids := [] }

/-- The store of `ConstantlyRecalculateWeightTestCase
.test_affects_correct_addons`: add-ons 1-4 have no qualifying event
(no summary, wrong verdict, non-current auto-approval, no event);
add-on 5 has a recent low rating; 6 and 7 recent high ratings; 8 a low
but old rating; 9 a recent add-on abuse report; 10 an old one; 11 a
recent author-linked report; 12 a deleted author-linked report; 13 a
deleted low rating; 14 has two auto-approved versions (114 old, 1141
current) and a recent author-linked report.  Expected selection:
add-ons 5, 9, 11 and 14. -/
def crwDB : DB :=
  { addons :=
      [⟨1, 1, .approved, some 1, 0, some 101, []⟩,
       ⟨2, 1, .approved, some 2, 0, some 102, []⟩,
       ⟨3, 1, .approved, some 3, 0, some 1031, []⟩,
       ⟨4, 1, .approved, some 4, 0, some 104, []⟩,
       ⟨5, 1, .approved, some 5, 0, some 105, []⟩,
       ⟨6, 1, .approved, some 6, 0, some 106, []⟩,
       ⟨7, 1, .approved, some 7, 0, some 107, []⟩,
       ⟨8, 1, .approved, some 8, 0, some 108, []⟩,
       ⟨9, 1, .approved, some 9, 0, some 109, []⟩,
       ⟨10, 1, .approved, some 10, 0, some 110, []⟩,
       ⟨11, 1, .approved, some 11, 0, some 111, [71]⟩,
       ⟨12, 1, .approved, some 12, 0, some 112, [72]⟩,
       ⟨13, 1, .approved, some 13, 0, some 113, []⟩,
       ⟨14, 1, .approved, some 14, 0, some 1141, [74]⟩]
    summaries :=
      [⟨102, .notAutoApproved, false, 0⟩,
       ⟨103, .autoApproved, false, 0⟩,
       ⟨104, .autoApproved, false, 0⟩,
       ⟨105, .autoApproved, false, 0⟩,
       ⟨106, .autoApproved, false, 0⟩,
       ⟨107, .autoApproved, false, 0⟩,
       ⟨108, .autoApproved, false, 0⟩,
       ⟨109, .autoApproved, false, 0⟩,
       ⟨110, .autoApproved, false, 0⟩,
       ⟨111, .autoApproved, false, 0⟩,
       ⟨112, .autoApproved, false, 0⟩,
       ⟨113, .autoApproved, false, 0⟩,
       ⟨114, .autoApproved, false, 0⟩,
       ⟨1141, .autoApproved, false, 0⟩]
    ratings :=
      [⟨5, 2, false, 3⟩,
       ⟨6, 4, false, 3⟩,
       ⟨7, 4, false, 3⟩,
       ⟨8, 1, false, -3⟩,
       ⟨13, 2, true, 3⟩]
    abuseReports :=
      [⟨some 9, none, false, 3⟩,
       ⟨some 10, none, false, -3⟩,
       ⟨none, some 71, false, 3⟩,
       ⟨none, some 72, true, 3⟩,
       ⟨none, some 74, false, 3⟩]
    deniedGuids := [] }

/-- A one-add-on store in which the only qualifying event is a recent,
non-deleted, author-linked abuse report (the scenario of
`auto_approved_addon7` in the test suite). -/
def authorReportDB : DB :=
  { addons := [⟨1, 1, .approved, some 1, 0, some 11, [9]⟩]
    summaries := [⟨11, .autoApproved, false, 0⟩]
    ratings := []
    abuseReports := [⟨none, some 9, false, 3⟩]
    deniedGuids := [] }

/-- The store of `TestResignAddonsForCose.test_basic`: five re-signable
public add-ons created before the cutoff (extension with several
versions, extension, static theme, language pack, dictionary), two
created after it, and one disabled, one awaiting review and one
incomplete add-on. -/
def coseDB : DB :=
  { addons :=
      [⟨1, 1, .approved, some 1, 20190401, some 201, []⟩,
       ⟨2, 1, .approved, some 2, 20190401, some 202, []⟩,
       ⟨3, 10, .approved, some 3, 20190401, some 203, []⟩,
       ⟨4, 5, .approved, some 4, 20190401, some 204, []⟩,
       ⟨5, 3, .approved, some 5, 20190401, some 205, []⟩,
       ⟨6, 1, .approved, some 6, 20190501, some 206, []⟩,
       ⟨7, 10, .approved, some 7, 20190501, some 207, []⟩,
       ⟨8, 1, .disabled, some 8, 20190401, some 208, []⟩,
       ⟨9, 1, .awaitingReview, some 9, 20190401, some 209, []⟩,
       ⟨10, 1, .incomplete, some 10, 20190401, none, []⟩]
    summaries := []
    ratings := []
    abuseReports := []
    deniedGuids := [] }

/-- The store of `test_process_addons_limit_addons`: five approved
extensions, all eligible for `resign_addons_for_cose`. -/
def limitDB : DB :=
  { addons :=
      [⟨1, 1, .approved, some 1, 20190401, some 201, []⟩,
       ⟨2, 1, .approved, some 2, 20190401, some 202, []⟩,
       ⟨3, 1, .approved, some 3, 20190401, some 203, []⟩,
       ⟨4, 1, .approved, some 4, 20190401, some 204, []⟩,
       ⟨5, 1, .approved, some 5, 20190401, some 205, []⟩]
    summaries := []
    ratings := []
    abuseReports := []
    deniedGuids := [] }

/-- The store of `TestDeleteObsoleteAddons.setUp`: an extension, a
static theme and a dictionary to keep, and five obsolete add-ons (a
complete theme whose guid is already denied, a language add-on, a
plugin, a guid-less lightweight theme and a web app). -/
def obsDB : DB :=
  { addons :=
      [⟨1, 1, .approved, some 1, 0, some 301, []⟩,
       ⟨2, 10, .approved, some 2, 0, some 302, []⟩,
       ⟨3, 3, .approved, some 3, 0, some 303, []⟩,
       ⟨4, 2, .approved, some 4, 0, some 304, []⟩,
       ⟨5, 6, .approved, some 5, 0, some 305, []⟩,
       ⟨6, 7, .approved, some 6, 0, some 306, []⟩,
       ⟨7, 9, .approved, none, 0, some 307, []⟩,
       ⟨8, 11, .approved, some 8, 0, some 308, []⟩]
    summaries := []
    ratings := []
    abuseReports := []
    deniedGuids := [4] }

end ProcessAddons

namespace ProcessAddons

/-! ## Batcher lemmas -/

theorem chunkedAux_nil (bs fuel : Nat) : chunkedAux bs fuel ([] : List α) = [] := by
  cases fuel <;> rfl

theorem chunkedAux_fuel (bs : Nat) (hbs : 0 < bs) :
    ∀ f₁ f₂ (l : List α), l.length ≤ f₁ → l.length ≤ f₂ →
      chunkedAux bs f₁ l = chunkedAux bs f₂ l := by
  intro f₁
  induction f₁ with
  | zero =>
    intro f₂ l h₁ _
    have : l = [] := List.eq_nil_of_length_eq_zero (Nat.le_zero.mp h₁)
    subst this
    simp [chunkedAux_nil]
  | succ f ih =>
    intro f₂ l h₁ h₂
    cases l with
    | nil => simp [chunkedAux_nil]
    | cons x xs =>
      cases f₂ with
      | zero => simp at h₂
      | succ g =>
        simp only [chunkedAux]
        congr 1
        apply ih
        · simp only [List.length_drop, List.length_cons]
          simp only [List.length_cons] at h₁
          omega
        · simp only [List.length_drop, List.length_cons]
          simp only [List.length_cons] at h₂
          omega

/-- Unfolding equation for `chunked` on a non-empty list: the first chunk
is the first `bs` elements, the rest is the chunking of what remains. -/
theorem chunked_cons (bs : Nat) (hbs : 0 < bs) (l : List α) (hl : l ≠ []) :
    chunked bs l = l.take bs :: chunked bs (l.drop bs) := by
  cases l with
  | nil => exact absurd rfl hl
  | cons x xs =>
    show chunkedAux bs (xs.length + 1) (x :: xs) = _
    simp only [chunkedAux]
    congr 1
    apply chunkedAux_fuel bs hbs
    · simp only [List.length_drop, List.length_cons]
      omega
    · exact Nat.le_refl _

/-- Concatenating the chunks gives back the input, exactly and in order. -/
theorem chunked_flatten (bs : Nat) (hbs : 0 < bs) (l : List α) :
    (chunked bs l).flatten = l := by
  suffices h : ∀ n (l : List α), l.length ≤ n → (chunked bs l).flatten = l by
    exact h l.length l (Nat.le_refl _)
  intro n
  induction n with
  | zero =>
    intro l hl
    have : l = [] := List.eq_nil_of_length_eq_zero (Nat.le_zero.mp hl)
    subst this
    simp [chunked, chunkedAux_nil]
  | succ n ih =>
    intro l hl
    cases l with
    | nil => simp [chunked, chunkedAux_nil]
    | cons x xs =>
      rw [chunked_cons bs hbs _ (by simp), List.flatten_cons]
      rw [ih ((x :: xs).drop bs)
        (by simp only [List.length_drop, List.length_cons]
            simp only [List.length_cons] at hl
            omega)]
      exact List.take_append_drop bs (x :: xs)

/-- The number of chunks is `⌈l.length / bs⌉`, written with natural
division as `(l.length + bs - 1) / bs`. -/
theorem chunked_length (bs : Nat) (hbs : 0 < bs) (l : List α) :
    (chunked bs l).length = (l.length + bs - 1) / bs := by
  suffices h : ∀ n (l : List α), l.length ≤ n →
      (chunked bs l).length = (l.length + bs - 1) / bs by
    exact h l.length l (Nat.le_refl _)
  intro n
  induction n with
  | zero =>
    intro l hl
    have : l = [] := List.eq_nil_of_length_eq_zero (Nat.le_zero.mp hl)
    subst this
    simp only [chunked, List.length_nil, chunkedAux_nil]
    exact (Nat.div_eq_of_lt (by omega)).symm
  | succ n ih =>
    intro l hl
    cases l with
    | nil =>
      simp only [chunked, List.length_nil, chunkedAux_nil]
      exact (Nat.div_eq_of_lt (by omega)).symm
    | cons x xs =>
      rw [chunked_cons bs hbs _ (by simp), List.length_cons]
      rw [ih ((x :: xs).drop bs)
        (by simp only [List.length_drop, List.length_cons]
            simp only [List.length_cons] at hl
            omega)]
      simp only [List.length_drop, List.length_cons]
      rcases Nat.lt_or_ge (xs.length + 1) bs with hlt | hge
      · have h1 : xs.length + 1 - bs = 0 := by omega
        have h2 : (xs.length + 1 + bs - 1) / bs = 1 := by
          have e : xs.length + 1 + bs - 1 = xs.length + bs := by omega
          rw [e, Nat.add_div_right _ hbs, Nat.div_eq_of_lt (by omega)]
        rw [h1, h2]
        simp only [Nat.zero_add]
        have hb1 : bs - 1 < bs := by omega
        rw [Nat.div_eq_of_lt hb1]
      · have h3 : xs.length + 1 + bs - 1 = (xs.length + 1 - bs + bs - 1) + bs := by
          omega
        rw [h3, Nat.add_div_right _ hbs]

/-- Every chunk is non-empty and has at most `bs` elements. -/
theorem chunked_sizes (bs : Nat) (hbs : 0 < bs) (l : List α) :
    ∀ c ∈ chunked bs l, c ≠ [] ∧ c.length ≤ bs := by
  suffices h : ∀ n (l : List α), l.length ≤ n →
      ∀ c ∈ chunked bs l, c ≠ [] ∧ c.length ≤ bs by
    exact h l.length l (Nat.le_refl _)
  intro n
  induction n with
  | zero =>
    intro l hl
    have : l = [] := List.eq_nil_of_length_eq_zero (Nat.le_zero.mp hl)
    subst this
    simp [chunked, chunkedAux_nil]
  | succ n ih =>
    intro l hl
    cases l with
    | nil => simp [chunked, chunkedAux_nil]
    | cons x xs =>
      rw [chunked_cons bs hbs _ (by simp)]
      intro c hc
      rcases List.mem_cons.mp hc with h | h
      · subst h
        refine ⟨?_, ?_⟩
        · simp only [ne_eq, List.take_eq_nil_iff]
          push_neg
          constructor <;> simp
          omega
        · simp
      · exact ih ((x :: xs).drop bs)
          (by simp only [List.length_drop, List.length_cons]
              simp only [List.length_cons] at hl
              omega)
          c h

end ProcessAddons

namespace ProcessAddons

/-! ## Characterisation lemmas -/

theorem lowRatingTriggers_iff (a : Addon) (s : AutoApprovalSummary) (r : Rating) :
    lowRatingTriggers a s r = true ↔
      r.addonId = a.id ∧ r.deleted = false ∧ r.rating ≤ 3 ∧ s.modified < r.created := by
  simp [lowRatingTriggers, and_assoc]

theorem reportTriggers_iff (a : Addon) (s : AutoApprovalSummary) (ab : AbuseReport) :
    reportTriggers a s ab = true ↔
      ab.deleted = false ∧ s.modified < ab.created ∧
        (ab.addonId = some a.id ∨ ∃ u, ab.userId = some u ∧ u ∈ a.authors) := by
  cases hu : ab.userId with
  | none => simp [reportTriggers, hu, and_assoc]
  | some u => simp [reportTriggers, hu, and_assoc]

theorem currentVersion_isSome_of_currentSummary (db : DB) (a : Addon)
    (s : AutoApprovalSummary) (h : currentSummary db a = some s) :
    a.currentVersion.isSome := by
  unfold currentSummary at h
  cases hac : a.currentVersion with
  | none => rw [hac] at h; simp at h
  | some v => rfl

theorem recalcNeeded_iff (db : DB) (a : Addon) :
    recalcNeeded db a = true ↔
      ∃ s, currentSummary db a = some s ∧ s.verdict = .autoApproved ∧
        ((∃ r ∈ db.ratings, r.addonId = a.id ∧ r.deleted = false ∧
            r.rating ≤ 3 ∧ s.modified < r.created) ∨
         (∃ ab ∈ db.abuseReports, ab.deleted = false ∧ s.modified < ab.created ∧
            (ab.addonId = some a.id ∨ ∃ u, ab.userId = some u ∧ u ∈ a.authors))) := by
  unfold recalcNeeded
  cases h : currentSummary db a with
  | none => simp
  | some s =>
    simp [List.any_eq_true, lowRatingTriggers_iff, reportTriggers_iff, and_assoc]

theorem autoApprovedUnconfirmed_iff (db : DB) (a : Addon) :
    autoApprovedUnconfirmed db a = true ↔
      ∃ s, currentSummary db a = some s ∧ s.verdict = .autoApproved ∧
        s.confirmed = false := by
  unfold autoApprovedUnconfirmed
  cases h : currentSummary db a with
  | none => simp
  | some s => simp [Bool.and_eq_true, Bool.not_eq_true']

theorem mem_selectorOf_iff (p : Addon → Bool) (l : List Addon) (aid : Nat) :
    aid ∈ (l.filter p).map (fun a => a.id) ↔
      ∃ a ∈ l, p a = true ∧ a.id = aid := by
  simp [List.mem_map, List.mem_filter, and_assoc]

theorem selectorOf_nodup (p : Addon → Bool) (l : List Addon)
    (h : (l.map (fun a => a.id)).Nodup) :
    ((l.filter p).map (fun a => a.id)).Nodup :=
  List.Nodup.sublist (List.Sublist.map _ (List.filter_sublist l)) h

theorem length_filterMap_of_isSome {α β : Type} (f : α → Option β) :
    ∀ l : List α, (∀ x ∈ l, (f x).isSome = true) → (l.filterMap f).length = l.length := by
  intro l h
  induction l with
  | nil => rfl
  | cons x xs ih =>
    have hx := h x (List.mem_cons_self x xs)
    cases hfx : f x with
    | none => rw [hfx] at hx; simp at hx
    | some b =>
      simp only [List.filterMap_cons, hfx, List.length_cons]
      rw [ih (fun y hy => h y (List.mem_cons_of_mem x hy))]

end ProcessAddons

namespace ProcessAddons

theorem recalcNeeded_deleted_rating (db : DB) (r : Rating) (hr : r.deleted = true)
    (a : Addon) :
    recalcNeeded { db with ratings := r :: db.ratings } a = recalcNeeded db a := by
  unfold recalcNeeded
  have hcs : currentSummary { db with ratings := r :: db.ratings } a
      = currentSummary db a := rfl
  rw [hcs]
  cases h : currentSummary db a with
  | none => rfl
  | some s =>
    have hfr : lowRatingTriggers a s r = false := by
      simp [lowRatingTriggers, hr]
    show (_ && ((r :: db.ratings).any (lowRatingTriggers a s) || _)) = _
    rw [List.any_cons, hfr, Bool.false_or]

theorem recalcNeeded_deleted_report (db : DB) (ab : AbuseReport)
    (hab : ab.deleted = true) (a : Addon) :
    recalcNeeded { db with abuseReports := ab :: db.abuseReports } a
      = recalcNeeded db a := by
  unfold recalcNeeded
  have hcs : currentSummary { db with abuseReports := ab :: db.abuseReports } a
      = currentSummary db a := rfl
  rw [hcs]
  cases h : currentSummary db a with
  | none => rfl
  | some s =>
    have hfab : reportTriggers a s ab = false := by
      simp [reportTriggers, hab]
    show (_ && (_ || (ab :: db.abuseReports).any (reportTriggers a s))) = _
    rw [List.any_cons, hfab, Bool.false_or]

theorem constantlyRecalc_deleted_rating_insensitive (db : DB) (r : Rating)
    (hr : r.deleted = true) :
    constantlyRecalcSelector { db with ratings := r :: db.ratings }
      = constantlyRecalcSelector db := by
  unfold constantlyRecalcSelector
  congr 1
  exact List.filter_congr fun a _ => recalcNeeded_deleted_rating db r hr a

theorem constantlyRecalc_deleted_report_insensitive (db : DB) (ab : AbuseReport)
    (hab : ab.deleted = true) :
    constantlyRecalcSelector { db with abuseReports := ab :: db.abuseReports }
      = constantlyRecalcSelector db := by
  unfold constantlyRecalcSelector
  congr 1
  exact List.filter_congr fun a _ => recalcNeeded_deleted_report db ab hab a

theorem find?_currentVersion_isSome (db : DB)
    (hnd : (db.addons.map (fun a => a.id)).Nodup)
    (a : Addon) (ha : a ∈ db.addons) (hcv : a.currentVersion.isSome = true) :
    ((db.addons.find? fun x => x.id == a.id).bind fun x => x.currentVersion).isSome
      = true := by
  have hfind : (db.addons.find? fun x => x.id == a.id).isSome := by
    rw [List.find?_isSome]
    exact ⟨a, ha, by simp⟩
  obtain ⟨b, hb⟩ := Option.isSome_iff_exists.mp hfind
  have hbmem := List.mem_of_find?_eq_some hb
  have hbid : b.id = a.id := by simpa using List.find?_some hb
  have hba : b = a := List.inj_on_of_nodup_map hnd hbmem ha hbid
  rw [hb]
  simpa [Option.bind, hba] using hcv

end ProcessAddons

namespace ProcessAddons

/-! ## Pipeline lemmas -/

theorem processAddons_valid (db : DB) (task : String)
    (htask : taskNames.contains task = true) (bs : Nat) (hbs : 0 < bs) :
    processAddons db task none (some (bs : Int))
      = ⟨chunked bs (getPks db task), none⟩ := by
  unfold processAddons batcher
  rw [htask]
  have h0 : ¬ ((bs : Int) ≤ 0) := by omega
  simp [h0]

theorem processAddons_default (db : DB) (task : String)
    (htask : taskNames.contains task = true) :
    processAddons db task none none
      = ⟨chunked 100 (getPks db task), none⟩ := by
  unfold processAddons batcher defaultBatchSize
  rw [htask]
  norm_num
  rfl

theorem processAddons_limit (db : DB) (task : String)
    (htask : taskNames.contains task = true) (n : Nat) :
    processAddons db task (some n) none
      = ⟨chunked 100 ((getPks db task).take n), none⟩ := by
  unfold processAddons batcher defaultBatchSize
  rw [htask]
  norm_num
  rfl

theorem chunked_100_of_length_101 (pks : List Nat) (h : pks.length = 101) :
    chunked 100 pks = [pks.take 100, pks.drop 100] := by
  have hne : pks ≠ [] := by intro he; rw [he] at h; simp at h
  rw [chunked_cons 100 (by omega) pks hne]
  have h1 : (pks.drop 100).length = 1 := by simp [h]
  have hne1 : pks.drop 100 ≠ [] := by intro he; rw [he] at h1; simp at h1
  rw [chunked_cons 100 (by omega) _ hne1]
  have ht : (pks.drop 100).take 100 = pks.drop 100 :=
    List.take_of_length_le (by omega)
  have hd : (pks.drop 100).drop 100 = [] :=
    List.eq_nil_of_length_eq_zero (by simp [h])
  rw [ht, hd]
  rfl

theorem chunked_50_of_length_101 (pks : List Nat) (h : pks.length = 101) :
    chunked 50 pks = [pks.take 50, (pks.drop 50).take 50, pks.drop 100] := by
  have hne : pks ≠ [] := by intro he; rw [he] at h; simp at h
  rw [chunked_cons 50 (by omega) pks hne]
  have h1 : (pks.drop 50).length = 51 := by simp [h]
  have hne1 : pks.drop 50 ≠ [] := by intro he; rw [he] at h1; simp at h1
  rw [chunked_cons 50 (by omega) _ hne1]
  have hdd : (pks.drop 50).drop 50 = pks.drop 100 := by
    rw [List.drop_drop]
  have h2 : (pks.drop 100).length = 1 := by simp [h]
  have hne2 : pks.drop 100 ≠ [] := by intro he; rw [he] at h2; simp at h2
  rw [hdd, chunked_cons 50 (by omega) _ hne2]
  have ht : (pks.drop 100).take 50 = pks.drop 100 :=
    List.take_of_length_le (by omega)
  have hd : (pks.drop 100).drop 50 = [] :=
    List.eq_nil_of_length_eq_zero (by simp [h])
  rw [ht, hd]
  rfl

end ProcessAddons

namespace ProcessAddons

/-! ## Denied-guid registry lemmas -/

theorem mem_addDeniedGuid (d : List Nat) (g x : Nat) (hx : x ∈ d) :
    x ∈ addDeniedGuid d g := by
  unfold addDeniedGuid
  split
  · exact hx
  · exact List.mem_append_left _ hx

theorem self_mem_addDeniedGuid (d : List Nat) (g : Nat) : g ∈ addDeniedGuid d g := by
  unfold addDeniedGuid
  split
  · rename_i h
    simpa using h
  · simp

theorem addDeniedGuid_nodup (d : List Nat) (g : Nat) (h : d.Nodup) :
    (addDeniedGuid d g).Nodup := by
  unfold addDeniedGuid
  split
  · exact h
  · rename_i hg
    have hg2 : g ∉ d := by simpa using hg
    simp [List.nodup_append, h, hg2]

theorem mem_denyFold (l : List Addon) :
    ∀ d x, x ∈ d → x ∈ l.foldl denyStep d := by
  induction l with
  | nil =>
    intro d x hx
    exact hx
  | cons a as ih =>
    intro d x hx
    apply ih
    cases ha : a.guid with
    | none => simpa [denyStep, ha] using hx
    | some g =>
      simp only [denyStep, ha]
      exact mem_addDeniedGuid d g x hx

theorem guid_mem_denyFold (l : List Addon) :
    ∀ d a g, a ∈ l → a.guid = some g → g ∈ l.foldl denyStep d := by
  induction l with
  | nil =>
    intro d a g ha _
    simp at ha
  | cons b bs ih =>
    intro d a g ha hg
    rcases List.mem_cons.mp ha with h | h
    · subst h
      rw [List.foldl_cons]
      apply mem_denyFold bs
      simp only [denyStep, hg]
      exact self_mem_addDeniedGuid d g
    · exact ih _ a g h hg

theorem denyFold_nodup (l : List Addon) :
    ∀ d : List Nat, d.Nodup → (l.foldl denyStep d).Nodup := by
  induction l with
  | nil =>
    intro d h
    exact h
  | cons a as ih =>
    intro d h
    apply ih
    cases ha : a.guid with
    | none => simpa [denyStep, ha] using h
    | some g =>
      simp only [denyStep, ha]
      exact addDeniedGuid_nodup d g h

end ProcessAddons

namespace ProcessAddons

/-! ## Obsolete-deletion lemmas -/

theorem deleteObsolete_hard_addons (db : DB) :
    (deleteObsoleteAddons db true).addons
      = db.addons.filter fun a => !obsoleteTypes.contains a.atype := rfl

theorem deleteObsolete_hard_denied (db : DB) :
    (deleteObsoleteAddons db true).deniedGuids
      = (db.addons.filter fun a => obsoleteTypes.contains a.atype).foldl
          denyStep db.deniedGuids := rfl

theorem deleteObsolete_soft_addons (db : DB) :
    (deleteObsoleteAddons db false).addons
      = db.addons.map fun a =>
          if obsoleteTypes.contains a.atype then { a with status := .deleted }
          else a := rfl

theorem deleteObsolete_untouched (db : DB) (wd : Bool) (a : Addon)
    (ha : a ∈ db.addons) (h : obsoleteTypes.contains a.atype = false) :
    a ∈ (deleteObsoleteAddons db wd).addons := by
  have hm : a.atype ∉ obsoleteTypes := by simpa using h
  cases wd
  · rw [deleteObsolete_soft_addons]
    refine List.mem_map.mpr ⟨a, ha, ?_⟩
    simp [hm]
  · rw [deleteObsolete_hard_addons]
    exact List.mem_filter.mpr ⟨ha, by simp [hm]⟩

theorem deleteObsolete_soft_length (db : DB) :
    (deleteObsoleteAddons db false).addons.length = db.addons.length := by
  rw [deleteObsolete_soft_addons, List.length_map]

theorem deleteObsolete_soft_visible (db : DB) :
    visibleCount (deleteObsoleteAddons db false)
      = (db.addons.filter fun a =>
          !obsoleteTypes.contains a.atype
            && !(a.status == AddonStatus.deleted)).length := by
  unfold visibleCount
  rw [deleteObsolete_soft_addons, List.filter_map, List.length_map]
  apply congrArg List.length
  apply List.filter_congr
  intro a _
  by_cases h : a.atype ∈ obsoleteTypes
  · simp [Function.comp, h]
  · by_cases h2 : a.status = AddonStatus.deleted
    · simp [Function.comp, h, h2]
    · simp [Function.comp, h, h2]

theorem deleteObsolete_hard_guid_recorded (db : DB) (a : Addon) (g : Nat)
    (ha : a ∈ db.addons) (hob : obsoleteTypes.contains a.atype = true)
    (hg : a.guid = some g) :
    g ∈ (deleteObsoleteAddons db true).deniedGuids := by
  rw [deleteObsolete_hard_denied]
  exact guid_mem_denyFold _ _ a g (List.mem_filter.mpr ⟨ha, hob⟩) hg

theorem deleteObsolete_hard_denied_kept (db : DB) (g : Nat)
    (hg : g ∈ db.deniedGuids) :
    g ∈ (deleteObsoleteAddons db true).deniedGuids := by
  rw [deleteObsolete_hard_denied]
  exact mem_denyFold _ _ g hg

theorem deleteObsolete_hard_denied_nodup (db : DB)
    (h : db.deniedGuids.Nodup) :
    (deleteObsoleteAddons db true).deniedGuids.Nodup := by
  rw [deleteObsolete_hard_denied]
  exact denyFold_nodup _ _ h

/-! ## Selector predicate lemmas -/

theorem resignPred_iff (a : Addon) :
    (resignableTypes.contains a.atype && a.status == AddonStatus.approved
        && a.created < coseCutoff) = true ↔
      a.atype ∈ resignableTypes ∧ a.status = .approved ∧ a.created < coseCutoff := by
  simp [and_assoc]

end ProcessAddons

namespace ProcessAddons

/-! ## Claim theorems -/

/-- C1: for every batch_size > 0, the command produces exactly
⌈L/batch_size⌉ chunks whose concatenation equals the selected id sequence
exactly and in order, and submits them in that order; with 101 items the
default batch size 100 yields the two submissions [first 100, last 1] and
batch size 50 yields three submissions sized 50, 50 and 1. -/
theorem command_batching_exact (db : DB) (task : String)
    (htask : taskNames.contains task = true) (bs : Nat) (hbs : 0 < bs) :
    (processAddons db task none (some ((bs : Nat) : Int))).error = none ∧
    (processAddons db task none (some ((bs : Nat) : Int))).submissions
      = chunked bs (getPks db task) ∧
    (processAddons db task none (some ((bs : Nat) : Int))).submissions.flatten
      = getPks db task ∧
    (processAddons db task none (some ((bs : Nat) : Int))).submissions.length
      = ((getPks db task).length + bs - 1) / bs ∧
    (∀ pks : List Nat, pks.length = 101 →
      chunked 100 pks = [pks.take 100, pks.drop 100] ∧
      chunked 50 pks = [pks.take 50, (pks.drop 50).take 50, pks.drop 100]) := by
  rw [processAddons_valid db task htask bs hbs]
  refine ⟨rfl, rfl, chunked_flatten bs hbs _, chunked_length bs hbs _, ?_⟩
  intro pks hp
  exact ⟨chunked_100_of_length_101 pks hp, chunked_50_of_length_101 pks hp⟩

theorem command_batching_exact_witness :
    taskNames.contains "recreate_previews" = true ∧ 0 < 100 ∧
    (processAddons limitDB "recreate_previews" none
        (some ((100 : Nat) : Int))).submissions
      = chunked 100 (getPks limitDB "recreate_previews") :=
  ⟨by decide, by decide,
   (command_batching_exact limitDB "recreate_previews" (by decide) 100
     (by decide)).2.1⟩

/-- C2: a task name absent from the Task Catalog makes the command fail
with the invalid-task error and perform zero dispatch calls. -/
theorem invalid_task_zero_dispatch (db : DB) (task : String) (limit : Option Nat)
    (bso : Option Int) (h : taskNames.contains task = false) :
    processAddons db task limit bso = ⟨[], some .invalidTask⟩ ∧
    (processAddons db task limit bso).submissions = [] := by
  have he : processAddons db task limit bso = ⟨[], some .invalidTask⟩ := by
    unfold processAddons
    rw [h]
    rfl
  exact ⟨he, by rw [he]⟩

theorem invalid_task_zero_dispatch_witness :
    taskNames.contains "foo" = false ∧
    processAddons rwDB "foo" none none = ⟨[], some .invalidTask⟩ :=
  ⟨by decide, (invalid_task_zero_dispatch rwDB "foo" none none (by decide)).1⟩

/-- C3 counterexample: in a store whose only potential trigger is a
recent, non-deleted, author-linked abuse report, the add-on IS selected
by the constantly-recalculate sweep — so the claim that an author-linked
abuse report never makes an add-on eligible is false. -/
theorem author_linked_report_makes_eligible :
    constantlyRecalcSelector authorReportDB = [1] ∧
    authorReportDB.ratings = [] ∧
    authorReportDB.abuseReports = [⟨none, some 9, false, 3⟩] ∧
    constantlyRecalcSelector { authorReportDB with abuseReports := [] } = [] :=
  ⟨by decide, rfl, rfl, by decide⟩

/-- C3 (amended): the constantly-recalculate selector reproduces the test
suite's enumerated scenarios exactly; a deleted rating never affects the
selection, a deleted abuse report (author-linked or not) never affects
the selection, and a selected add-on always has an auto-approved current
version together with a qualifying in-window event — a non-deleted low
rating, or a non-deleted abuse report against the add-on or one of its
authors, created after the current summary was last modified (recent
non-deleted author-linked reports DO make an add-on eligible). -/
theorem constantly_recalc_selector_exclusions :
    constantlyRecalcSelector crwDB = [5, 9, 11, 14] ∧
    (∀ db r, r.deleted = true →
      constantlyRecalcSelector { db with ratings := r :: db.ratings }
        = constantlyRecalcSelector db) ∧
    (∀ db ab, ab.deleted = true →
      constantlyRecalcSelector { db with abuseReports := ab :: db.abuseReports }
        = constantlyRecalcSelector db) ∧
    (∀ db aid, aid ∈ constantlyRecalcSelector db →
      ∃ a ∈ db.addons, a.id = aid ∧ ∃ s, currentSummary db a = some s ∧
        s.verdict = .autoApproved ∧
        ((∃ r ∈ db.ratings, r.addonId = a.id ∧ r.deleted = false ∧ r.rating ≤ 3 ∧
            s.modified < r.created) ∨
         (∃ ab ∈ db.abuseReports, ab.deleted = false ∧ s.modified < ab.created ∧
            (ab.addonId = some a.id ∨ ∃ u, ab.userId = some u ∧ u ∈ a.authors)))) := by
  refine ⟨by decide,
    fun db r hr => constantlyRecalc_deleted_rating_insensitive db r hr,
    fun db ab hab => constantlyRecalc_deleted_report_insensitive db ab hab, ?_⟩
  intro db aid h
  unfold constantlyRecalcSelector at h
  obtain ⟨a, ha, hpa, haid⟩ := (mem_selectorOf_iff _ _ _).mp h
  obtain ⟨s, hs, hv, hor⟩ := (recalcNeeded_iff db a).mp hpa
  exact ⟨a, ha, haid, s, hs, hv, hor⟩

theorem constantly_recalc_selector_exclusions_witness :
    (⟨5, 2, true, 3⟩ : Rating).deleted = true ∧
    constantlyRecalcSelector { crwDB with ratings := ⟨5, 2, true, 3⟩ :: crwDB.ratings }
      = constantlyRecalcSelector crwDB :=
  ⟨rfl, constantly_recalc_selector_exclusions.2.1 crwDB ⟨5, 2, true, 3⟩ rfl⟩

/-- C4: the `recalculate_post_review_weight` selector includes exactly
the add-ons whose current version is auto-approved and unconfirmed, once
each: no summary, NOT_AUTO_APPROVED verdict, already-confirmed, or
non-current auto-approval all exclude an add-on, and ids never repeat
when the store's ids are distinct. -/
theorem auto_approved_unconfirmed_selector :
    recalcSelector rwDB = [5] ∧
    (∀ db aid, aid ∈ recalcSelector db ↔
      ∃ a ∈ db.addons, a.id = aid ∧ ∃ s, currentSummary db a = some s ∧
        s.verdict = .autoApproved ∧ s.confirmed = false) ∧
    (∀ db, (db.addons.map (fun a => a.id)).Nodup → (recalcSelector db).Nodup) := by
  refine ⟨by decide, ?_, ?_⟩
  · intro db aid
    unfold recalcSelector
    rw [mem_selectorOf_iff]
    constructor
    · rintro ⟨a, ha, hpa, haid⟩
      obtain ⟨s, hs⟩ := (autoApprovedUnconfirmed_iff db a).mp hpa
      exact ⟨a, ha, haid, s, hs⟩
    · rintro ⟨a, ha, haid, s, hs⟩
      exact ⟨a, ha, (autoApprovedUnconfirmed_iff db a).mpr ⟨s, hs⟩, haid⟩
  · intro db h
    unfold recalcSelector
    exact selectorOf_nodup _ _ h

theorem auto_approved_unconfirmed_selector_witness :
    (rwDB.addons.map (fun a => a.id)).Nodup ∧ (recalcSelector rwDB).Nodup :=
  ⟨by decide, auto_approved_unconfirmed_selector.2.2 rwDB (by decide)⟩

/-- C5: a limit argument truncates the selector's output to its first N
ids, in selector order, before batching; with 5 eligible ids and
limit=2 exactly the first 2 ids go out as one chunk, and without a limit
all 5 go out. -/
theorem limit_truncates_before_batching :
    (∀ db task, taskNames.contains task = true → ∀ n : Nat,
      processAddons db task (some n) none
        = ⟨chunked 100 ((getPks db task).take n), none⟩ ∧
      (processAddons db task (some n) none).submissions.flatten
        = (getPks db task).take n) ∧
    getPks limitDB "resign_addons_for_cose" = [1, 2, 3, 4, 5] ∧
    (processAddons limitDB "resign_addons_for_cose" (some 2) none).submissions
      = [[1, 2]] ∧
    (processAddons limitDB "resign_addons_for_cose" none none).submissions
      = [[1, 2, 3, 4, 5]] := by
  refine ⟨?_, by decide, by decide, by decide⟩
  intro db task htask n
  have h := processAddons_limit db task htask n
  refine ⟨h, ?_⟩
  rw [h]
  exact chunked_flatten 100 (by omega) _

theorem limit_truncates_before_batching_witness :
    taskNames.contains "resign_addons_for_cose" = true ∧
    processAddons limitDB "resign_addons_for_cose" (some 2) none
      = ⟨chunked 100 ((getPks limitDB "resign_addons_for_cose").take 2), none⟩ :=
  ⟨by decide,
   (limit_truncates_before_batching.1 limitDB "resign_addons_for_cose"
     (by decide) 2).1⟩

/-- C6: a non-positive batch size makes the Batcher — and the command,
when it reaches the Batcher with a valid task — fail with the
configuration error before any dispatch: zero chunks are submitted. -/
theorem nonpositive_batch_size_no_dispatch (items : List Nat) (b : Int)
    (hb : b ≤ 0) (db : DB) (task : String) (limit : Option Nat)
    (htask : taskNames.contains task = true) :
    batcher items b = .error .configurationError ∧
    processAddons db task limit (some b) = ⟨[], some .configurationError⟩ ∧
    (processAddons db task limit (some b)).submissions = [] := by
  have hb2 : ∀ its : List Nat, batcher its b = .error .configurationError := by
    intro its
    unfold batcher
    rw [if_pos hb]
  have h2 : processAddons db task limit (some b)
      = ⟨[], some .configurationError⟩ := by
    unfold processAddons
    rw [htask]
    cases limit with
    | none => simp [hb2]
    | some n => simp [hb2]
  exact ⟨hb2 items, h2, by rw [h2]⟩

theorem nonpositive_batch_size_no_dispatch_witness :
    ((0 : Int) ≤ 0) ∧
    taskNames.contains "recalculate_post_review_weight" = true ∧
    batcher [1, 2, 3] 0 = .error .configurationError ∧
    processAddons rwDB "recalculate_post_review_weight" none (some 0)
      = ⟨[], some .configurationError⟩ :=
  ⟨by decide, by decide,
   (nonpositive_batch_size_no_dispatch [1, 2, 3] 0 (by decide) rwDB
     "recalculate_post_review_weight" none (by decide)).1,
   (nonpositive_batch_size_no_dispatch [1, 2, 3] 0 (by decide) rwDB
     "recalculate_post_review_weight" none (by decide)).2.1⟩

/-- C7: selection and batching are deterministic functions of the store
state: two runs of the same task against the same store produce the same
result and submit the same chunks in the same order. -/
theorem repeated_run_deterministic (db : DB) (task : String) (limit : Option Nat)
    (bso : Option Int) (r1 r2 : RunResult)
    (h1 : r1 = processAddons db task limit bso)
    (h2 : r2 = processAddons db task limit bso) :
    r1 = r2 ∧ r1.submissions = r2.submissions := by
  subst h1
  subst h2
  exact ⟨rfl, rfl⟩

theorem repeated_run_deterministic_witness :
    processAddons rwDB "recalculate_post_review_weight" none none
      = processAddons rwDB "recalculate_post_review_weight" none none :=
  (repeated_run_deterministic rwDB "recalculate_post_review_weight" none none
    (processAddons rwDB "recalculate_post_review_weight" none none)
    (processAddons rwDB "recalculate_post_review_weight" none none)
    rfl rfl).1

/-- C8: the weight-recalculation worker touches exactly one version per
selected add-on — its current version: N selected ids give exactly N
`calculate_weight` invocations, and every touched version is the current
version of a stored add-on; on the test-suite store the 4 selected
add-ons give exactly the 4 current-version summaries, not the old
version 114 of add-on 14. -/
theorem one_weight_recalculation_per_addon :
    (∀ db, (db.addons.map (fun a => a.id)).Nodup →
      (recalcWeightTargets db (constantlyRecalcSelector db)).length
        = (constantlyRecalcSelector db).length) ∧
    (∀ db pks vid, vid ∈ recalcWeightTargets db pks →
      ∃ a ∈ db.addons, a.currentVersion = some vid) ∧
    recalcWeightTargets crwDB (constantlyRecalcSelector crwDB)
      = [105, 109, 111, 1141] := by
  refine ⟨?_, ?_, by decide⟩
  · intro db hnd
    unfold recalcWeightTargets
    apply length_filterMap_of_isSome
    intro pk hpk
    unfold constantlyRecalcSelector at hpk
    obtain ⟨a, ha, hpa, haid⟩ := (mem_selectorOf_iff _ _ _).mp hpk
    obtain ⟨s, hs, _⟩ := (recalcNeeded_iff db a).mp hpa
    have hcv := currentVersion_isSome_of_currentSummary db a s hs
    subst haid
    exact find?_currentVersion_isSome db hnd a ha hcv
  · intro db pks vid hvid
    unfold recalcWeightTargets at hvid
    obtain ⟨pk, _, hpk⟩ := List.mem_filterMap.mp hvid
    obtain ⟨b, hb, hcv⟩ := Option.bind_eq_some.mp hpk
    exact ⟨b, List.mem_of_find?_eq_some hb, hcv⟩

theorem one_weight_recalculation_per_addon_witness :
    (crwDB.addons.map (fun a => a.id)).Nodup ∧
    (recalcWeightTargets crwDB (constantlyRecalcSelector crwDB)).length
      = (constantlyRecalcSelector crwDB).length :=
  ⟨by decide, one_weight_recalculation_per_addon.1 crwDB (by decide)⟩

/-- C9: the `resign_addons_for_cose` selector picks exactly the public
(approved) add-ons of re-signable type created before the cutoff —
disabled, awaiting-review, incomplete and too-recent add-ons are never
picked — and the worker signs exactly one file per selected add-on, the
current version's; the test-suite store gives exactly 5 signing calls. -/
theorem resign_selector_single_signing :
    (∀ db aid, aid ∈ resignSelector db ↔
      ∃ a ∈ db.addons, a.id = aid ∧ a.atype ∈ resignableTypes ∧
        a.status = .approved ∧ a.created < coseCutoff) ∧
    (∀ db, (db.addons.map (fun a => a.id)).Nodup →
      (∀ a ∈ db.addons, a.status = .approved → a.currentVersion.isSome = true) →
      (signTargets db (resignSelector db)).length = (resignSelector db).length) ∧
    resignSelector coseDB = [1, 2, 3, 4, 5] ∧
    signTargets coseDB (resignSelector coseDB) = [201, 202, 203, 204, 205] := by
  refine ⟨?_, ?_, by decide, by decide⟩
  · intro db aid
    unfold resignSelector
    rw [mem_selectorOf_iff]
    constructor
    · rintro ⟨a, ha, hpa, haid⟩
      exact ⟨a, ha, haid, (resignPred_iff a).mp hpa⟩
    · rintro ⟨a, ha, haid, hp⟩
      exact ⟨a, ha, (resignPred_iff a).mpr hp, haid⟩
  · intro db hnd hcv
    unfold signTargets
    apply length_filterMap_of_isSome
    intro pk hpk
    unfold resignSelector at hpk
    obtain ⟨a, ha, hpa, haid⟩ := (mem_selectorOf_iff _ _ _).mp hpk
    obtain ⟨_, hst, _⟩ := (resignPred_iff a).mp hpa
    subst haid
    exact find?_currentVersion_isSome db hnd a ha (hcv a ha hst)

theorem resign_selector_single_signing_witness :
    (coseDB.addons.map (fun a => a.id)).Nodup ∧
    (signTargets coseDB (resignSelector coseDB)).length
      = (resignSelector coseDB).length :=
  ⟨by decide, resign_selector_single_signing.2.1 coseDB (by decide) (by decide)⟩

/-- C10: `delete_obsolete_addons` only removes add-ons of obsolete
types — extensions, static themes and dictionaries are untouched; the
soft sweep keeps every row (unfiltered count unchanged) while the
visible count drops to the non-obsolete non-deleted rows; the hard
sweep removes the obsolete rows and records every non-null guid in the
denied-guid registry, skipping guid-less add-ons and ignoring guids
already present. -/
theorem delete_obsolete_addons_scoped :
    (∀ db wd a, a ∈ db.addons → obsoleteTypes.contains a.atype = false →
      a ∈ (deleteObsoleteAddons db wd).addons) ∧
    (∀ db, (deleteObsoleteAddons db false).addons.length = db.addons.length) ∧
    (∀ db, visibleCount (deleteObsoleteAddons db false)
        = (db.addons.filter fun a =>
            !obsoleteTypes.contains a.atype
              && !(a.status == AddonStatus.deleted)).length) ∧
    (∀ db, (deleteObsoleteAddons db true).addons
        = db.addons.filter fun a => !obsoleteTypes.contains a.atype) ∧
    (∀ db a g, a ∈ db.addons → obsoleteTypes.contains a.atype = true →
      a.guid = some g → g ∈ (deleteObsoleteAddons db true).deniedGuids) ∧
    (∀ db g, g ∈ db.deniedGuids → g ∈ (deleteObsoleteAddons db true).deniedGuids) ∧
    (∀ db, db.deniedGuids.Nodup → (deleteObsoleteAddons db true).deniedGuids.Nodup) ∧
    (deleteObsoleteAddons obsDB true).addons.map (fun a => a.id) = [1, 2, 3] ∧
    (deleteObsoleteAddons obsDB true).deniedGuids = [4, 5, 6, 8] ∧
    (deleteObsoleteAddons obsDB false).addons.length = 8 ∧
    visibleCount (deleteObsoleteAddons obsDB false) = 3 :=
  ⟨deleteObsolete_untouched, deleteObsolete_soft_length, deleteObsolete_soft_visible,
   fun db => deleteObsolete_hard_addons db, deleteObsolete_hard_guid_recorded,
   deleteObsolete_hard_denied_kept, deleteObsolete_hard_denied_nodup,
   by decide, by decide, by decide, by decide⟩

theorem delete_obsolete_addons_scoped_witness :
    (⟨1, 1, .approved, some 1, 0, some 301, []⟩ : Addon) ∈ obsDB.addons ∧
    obsoleteTypes.contains (⟨1, 1, .approved, some 1, 0, some 301, []⟩ : Addon).atype
      = false ∧
    (⟨1, 1, .approved, some 1, 0, some 301, []⟩ : Addon)
      ∈ (deleteObsoleteAddons obsDB true).addons :=
  ⟨by decide, by decide,
   delete_obsolete_addons_scoped.1 obsDB true
     ⟨1, 1, .approved, some 1, 0, some 301, []⟩ (by decide) (by decide)⟩

end ProcessAddons
